import Mathlib

/-!
Shallow embedding of the invoice financial engine, discount engine,
accounting-entry deriver and course schedule calculator of the
`bewegungsradius-crm` repository.

Money values are modelled as rationals (`ℚ`): Python `Decimal` arithmetic on
the magnitudes occurring here (2-decimal amounts, division by 100,
products far below 28 significant digits) is exact, so `ℚ` is a faithful
model; `Decimal.quantize(Decimal('0.01'))` under the default context rounds
half-to-even, modelled by `quantize2`.  Dates and datetimes are modelled as
integers (day numbers); `None` becomes `Option.none`.  Python truthiness of
optional decimals (`if not amount: ...`, where both `None` and `Decimal('0')`
are falsy) is modelled by `falsyQ`.
-/

/-- Round a rational to an integer, ties to even
(Python `Decimal`'s default `ROUND_HALF_EVEN`). -/
def roundHalfEven (q : ℚ) : ℤ :=
  let f := ⌊q⌋
  let r := q - f
  if r < 1/2 then f
  else if 1/2 < r then f + 1
  else if f % 2 = 0 then f else f + 1

/-- `Decimal.quantize(Decimal('0.01'))`: round to 2 decimal places, half to even. -/
def quantize2 (q : ℚ) : ℚ :=
  (roundHalfEven (q * 100) : ℚ) / 100

/-- Python truthiness of an optional decimal: `None` and `0` are falsy. -/
def falsyQ : Option ℚ → Bool
  | none => true
  | some x => decide (x = 0)

/-- A rational has at most two fractional decimal digits. -/
def hasAtMost2Decimals (q : ℚ) : Prop := (q * 100).den = 1

/-- A rational has at most four fractional decimal digits. -/
def hasAtMost4Decimals (q : ℚ) : Prop := (q * 10000).den = 1

instance (q : ℚ) : Decidable (hasAtMost2Decimals q) := by
  unfold hasAtMost2Decimals; infer_instance

instance (q : ℚ) : Decidable (hasAtMost4Decimals q) := by
  unfold hasAtMost4Decimals; infer_instance

/-! ## Tax calculator (`invoices/models.py`, class `TaxCalculator`) -/

namespace TaxCalculator

/-- `TaxCalculator.calculate_tax_amount`: 0 if the amount is `None` or the
invoice is tax exempt, otherwise `(amount * tax_rate / 100).quantize('0.01')`. -/
def calculate_tax_amount (amount : Option ℚ) (tax_rate : ℚ) (is_tax_exempt : Bool) : ℚ :=
  match amount with
  | none => 0
  | some a => if is_tax_exempt then 0 else quantize2 (a * tax_rate / 100)

/-- `TaxCalculator.calculate_total`: 0 if the amount is `None`, otherwise
`(amount + tax_amount).quantize('0.01')`. -/
def calculate_total (amount : Option ℚ) (tax_rate : ℚ) (is_tax_exempt : Bool) : ℚ :=
  match amount with
  | none => 0
  | some a => quantize2 (a + calculate_tax_amount (some a) tax_rate is_tax_exempt)

end TaxCalculator

/-! ## Discount codes (`customers/models.py`, `customers/services.py`) -/

/-- `CustomerDiscountCode.DISCOUNT_TYPE_CHOICES`. -/
inductive DiscountType | percentage | fixed
deriving DecidableEq, Repr

/-- `CustomerDiscountCode.STATUS_CHOICES`. -/
inductive CodeStatus | planned | sent | used | expired | cancelled
deriving DecidableEq, Repr

/-- The fields of `CustomerDiscountCode` the financial engine reads.
`valid_from`/`valid_until` are dates (day numbers). -/
structure CustomerDiscountCode where
  discount_type : DiscountType
  discount_value : ℚ
  status : CodeStatus
  valid_from : ℤ
  valid_until : ℤ
deriving DecidableEq, Repr

/-- `CustomerDiscountCode.calculate_discount`: percentage codes return
`amount * (discount_value / 100)` (no rounding); every other type returns
`min(discount_value, amount)`. -/
def CustomerDiscountCode.calculate_discount (code : CustomerDiscountCode) (amount : ℚ) : ℚ :=
  match code.discount_type with
  | .percentage => amount * (code.discount_value / 100)
  | .fixed => min code.discount_value amount

/-- `DiscountCodeValidator.validate` (`customers/services.py`): returns
`(is_valid, message)`, checking status `used`, then `cancelled`, then
`expired`, then the inclusive date window; `today` is
`timezone.now().date()`, passed here as a parameter. -/
def DiscountCodeValidator.validate (code : CustomerDiscountCode) (today : ℤ) : Bool × String :=
  if code.status = .used then (false, "Code wurde bereits verwendet")
  else if code.status = .cancelled then (false, "Code wurde storniert")
  else if code.status = .expired then (false, "Code ist abgelaufen")
  else if ¬(code.valid_from ≤ today ∧ today ≤ code.valid_until) then
    if code.valid_from > today then (false, "Code ist noch nicht gültig")
    else (false, "Code ist abgelaufen")
  else (true, "Code ist gültig")

/-! ## Invoice data model (`invoices/models.py`) -/

/-- The fields of `offers.Offer` the invoice engine reads.  `total_amount`
is a derived property that is never `None` (it returns `0.00` when the
offer's net amount is unset), but it can be `0`, which is falsy in Python;
we keep an `Option` so that the truthiness guards of the source are
modelled exactly. -/
structure Offer where
  total_amount : Option ℚ
  title : String
deriving DecidableEq, Repr

/-- The fields of `courses.Course` the invoice engine reads.  `price` is
the derived property `course.offer.total_amount`; `offer` is the course's
offer reference, read by `_get_invoice_title_safe`. -/
structure Course where
  price : Option ℚ
  offer : Option Offer
  title : String
deriving DecidableEq, Repr

/-- `Invoice.STATUS_CHOICES`. -/
inductive InvoiceStatus | draft | sent | paid | overdue | cancelled
deriving DecidableEq, Repr

/-- The fields of `invoices.Invoice` the financial engine and the
accounting deriver read or write.  Dates are day numbers; `cancelled_at`
is a timestamp whose `.date()` we model as the day number itself.
Fields that only feed PDF/email rendering (`course_units`,
`course_duration`, `course_id_custom`, ZPP metadata, email tracking) are
omitted: no claim reads them and `save` writes them independently of the
amount pipeline. -/
structure Invoice where
  invoice_number : String
  course : Option Course
  offer : Option Offer
  discount_code : Option CustomerDiscountCode
  issue_date : Option ℤ
  due_date : Option ℤ
  amount : Option ℚ
  original_amount : Option ℚ
  discount_amount : ℚ
  tax_rate : ℚ
  is_tax_exempt : Bool
  status : InvoiceStatus
  cancelled_at : Option ℤ
  cancelled_invoice_number : Option String
deriving DecidableEq, Repr

/-- `Invoice.tax_amount` property. -/
def Invoice.tax_amount (inv : Invoice) : ℚ :=
  TaxCalculator.calculate_tax_amount inv.amount inv.tax_rate inv.is_tax_exempt

/-- `Invoice.total_amount` property. -/
def Invoice.total_amount (inv : Invoice) : ℚ :=
  TaxCalculator.calculate_total inv.amount inv.tax_rate inv.is_tax_exempt

/-- The offer leg of `InvoiceInitializer._set_amount_from_offer_or_course`:
if an offer is present and its `total_amount` is truthy, take it,
otherwise keep the current amount. -/
def offerAmount (offer : Option Offer) (amount : Option ℚ) : Option ℚ :=
  match offer with
  | some o => if falsyQ o.total_amount then amount else o.total_amount
  | none => amount

/-- `InvoiceInitializer._set_amount_from_offer_or_course`: when the current
amount is falsy (`None` or `0`), try the course price first, then the
offer's total amount; each source is skipped when its value is falsy. -/
def resolveAmount (inv : Invoice) : Option ℚ :=
  if falsyQ inv.amount then
    match inv.course with
    | some c => if falsyQ c.price then offerAmount inv.offer inv.amount else c.price
    | none => offerAmount inv.offer inv.amount
  else inv.amount

/-- `InvoiceDateManager.get_issue_date`: the given issue date, or today. -/
def InvoiceDateManager.get_issue_date (issue_date : Option ℤ) (today : ℤ) : ℤ :=
  issue_date.getD today

/-- `InvoiceDateManager.get_due_date`: the given due date if set, otherwise
issue date (or today) plus 14 days. -/
def InvoiceDateManager.get_due_date (due_date issue_date : Option ℤ) (today : ℤ) : ℤ :=
  match due_date with
  | some d => d
  | none => InvoiceDateManager.get_issue_date issue_date today + 14

/-- `InvoiceInitializer.initialize_fields`, restricted to the modelled fields:
amount resolution (`_set_amount_from_offer_or_course`) and date defaults
(`_set_dates`).  `_set_invoice_number` and `_set_details_from_source`
write only to the omitted fields (invoice number generation,
course units/duration/custom id) and do not touch the amount pipeline. -/
def InvoiceInitializer.initialize_fields (today : ℤ) (inv : Invoice) : Invoice :=
  let amount := resolveAmount inv
  let issue := InvoiceDateManager.get_issue_date inv.issue_date today
  let due := InvoiceDateManager.get_due_date inv.due_date (some issue) today
  { inv with amount := amount, issue_date := some issue, due_date := some due }

/-- `Invoice.save` (`invoices/models.py`, the financial pipeline):
1. fail with `ValueError` when neither course nor offer is set;
2. run the initializer (amount resolution, date defaults);
3. set `original_amount` from `amount` when it is falsy (`None` or `0`);
4. recompute `discount_amount` from the discount code and
   `original_amount` (0 when no code is attached);
5. set `amount := original_amount - discount_amount`.
When `original_amount` is still `None` after step 3, steps 4/5 raise a
`TypeError` in Python (`None` in arithmetic); modelled as `.error`. -/
def Invoice.save (today : ℤ) (inv : Invoice) : Except String Invoice :=
  if inv.course.isNone && inv.offer.isNone then
    .error "ValueError: Eine Rechnung muss entweder einen Kurs oder ein Angebot haben!"
  else
    let inv1 := InvoiceInitializer.initialize_fields today inv
    let origOpt := if falsyQ inv1.original_amount then inv1.amount else inv1.original_amount
    match origOpt with
    | none => .error "TypeError: unsupported operand type for NoneType"
    | some orig =>
      let d := match inv1.discount_code with
        | some code => code.calculate_discount orig
        | none => (0 : ℚ)
      .ok { inv1 with
              original_amount := some orig
              discount_amount := d
              amount := some (orig - d) }

/-! ## Accounting entry deriver (`accounting/models.py`) -/

/-- The fields of `AccountingEntry` written and queried by the deriver.
The store below holds the entries linked to one invoice (every query in
the source filters on `invoice=invoice`, so entries of distinct invoices
never interact); creation appends at the end. -/
structure AccountingEntry where
  entry_type : String
  description : String
  amount : ℚ
  date : Option ℤ
  notes : String
deriving DecidableEq, Repr

/-- Substring containment (Django `description__contains`). -/
def strContains (needle hay : String) : Bool :=
  hay.data.tails.any (fun t => needle.data.isPrefixOf t)

/-- `AccountingEntry.Meta.ordering = ["-date"]`: `e` sorts strictly before
`a` when its date is larger; `NULL` dates sort last in descending order. -/
def dateDescBefore : Option ℤ → Option ℤ → Bool
  | some x, some y => decide (y < x)
  | some _, none => true
  | none, _ => false

/-- `queryset.first()` under the model's default `-date` ordering: the
earliest-inserted entry among those with the largest date. -/
def firstByDateDesc (l : List AccountingEntry) : Option AccountingEntry :=
  l.foldl
    (fun acc e =>
      match acc with
      | none => some e
      | some a => if dateDescBefore e.date a.date then some e else acc)
    none

/-- `_get_invoice_title_safe`: course's offer title, else course title,
else offer title, else a placeholder. -/
def get_invoice_title_safe (inv : Invoice) : String :=
  match inv.course with
  | some c =>
    match c.offer with
    | some o => o.title
    | none => c.title
  | none =>
    match inv.offer with
    | some o => o.title
    | none => "Rechnung ohne Titel"

/-- Python `invoice.cancelled_invoice_number or 'N/A'` (both `None` and the
blank string are falsy). -/
def stornoNumberOrNA : Option String → String
  | some s => if s = "" then "N/A" else s
  | none => "N/A"

/-- The filter `entry_type="income"`. -/
def isIncome (e : AccountingEntry) : Bool := e.entry_type == "income"

/-- The reversal filter `entry_type="expense", description__contains="Stornierung"`. -/
def isReversal (e : AccountingEntry) : Bool :=
  e.entry_type == "expense" && strContains "Stornierung" e.description

/-- `create_accounting_entry_from_invoice` (the `post_save` receiver),
acting on the list of accounting entries linked to the saved invoice:
* `draft`/`sent`/`overdue`: delete every entry of the invoice;
* `paid`: do nothing if any entry exists, otherwise create the income
  entry (`amount = invoice.total_amount`, `date = invoice.issue_date`);
* `cancelled`: do nothing unless an income entry exists and no expense
  entry whose description contains `"Stornierung"` exists; otherwise
  create one reversal whose amount is the stored income amount and whose
  date is `cancelled_at.date()`, falling back to today. -/
def create_accounting_entry_from_invoice (today : ℤ) (inv : Invoice)
    (entries : List AccountingEntry) : List AccountingEntry :=
  match inv.status with
  | .draft | .sent | .overdue => []
  | .paid =>
    match firstByDateDesc entries with
    | some _ => entries
    | none =>
      entries ++ [{ entry_type := "income"
                    description := "Rechnung " ++ inv.invoice_number ++ " - "
                      ++ get_invoice_title_safe inv
                    amount := inv.total_amount
                    date := inv.issue_date
                    notes := "Automatisch von Rechnung " ++ inv.invoice_number }]
  | .cancelled =>
    match firstByDateDesc (entries.filter isIncome) with
    | none => entries
    | some income =>
      if entries.any isReversal then
        entries
      else
        entries ++ [{ entry_type := "expense"
                      description := "Stornierung: Rechnung " ++ inv.invoice_number
                        ++ " - " ++ get_invoice_title_safe inv
                      amount := income.amount
                      date := some (inv.cancelled_at.getD today)
                      notes := "Storno-Nummer: " ++ stornoNumberOrNA inv.cancelled_invoice_number
                        ++ " - Gegenbuchung zu Einnahme-Eintrag" }]

/-- The entry store after a sequence of invoice saves (each list element is
the invoice's state at that save), starting from no entries. -/
def runAccounting (today : ℤ) (saves : List Invoice) : List AccountingEntry :=
  saves.foldl (fun st i => create_accounting_entry_from_invoice today i st) []

/-- Number of income entries in a store. -/
def countIncome (entries : List AccountingEntry) : ℕ :=
  (entries.filter isIncome).length

/-- Number of cancellation reversal entries (expense entries whose
description contains the `"Stornierung"` marker) in a store. -/
def countReversal (entries : List AccountingEntry) : ℕ :=
  (entries.filter isReversal).length

/-! ## Course schedule (`courses/services.py`) -/

/-- Python `range(a, b + 1)` over years. -/
def yearsRange (a b : ℤ) : List ℤ :=
  (List.range (b + 1 - a).toNat).map (fun i : ℕ => a + (i : ℤ))

/-- `CourseHolidayCalculator.get_holidays_in_range`, parametrised by the
region calendar `cal` (year ↦ holiday dates, the `workalendar` Bavaria
calendar treated as a black box) and by `yearOf` (the `.year` of a date):
empty when either bound is `None`, otherwise the calendar's holidays of
every year touched by the range, filtered to `[start, end]`, sorted
ascending. -/
def get_holidays_in_range (cal : ℤ → List ℤ) (yearOf : ℤ → ℤ) :
    Option ℤ → Option ℤ → List ℤ
  | some s, some e =>
    ((yearsRange (yearOf s) (yearOf e)).flatMap
      (fun y => (cal y).filter (fun h => decide (s ≤ h) && decide (h ≤ e)))).insertionSort (· ≤ ·)
  | _, _ => []

/-- `CourseHolidayCalculator.is_holiday`: membership in the calendar's
holiday list for the date's own year. -/
def is_holiday (cal : ℤ → List ℤ) (yearOf : ℤ → ℤ) (d : ℤ) : Bool :=
  decide (d ∈ cal (yearOf d))

/-- The `while current_date <= end_date` loop of
`CourseScheduleCalculator.get_course_dates`: step weekly from `cur`,
keeping the dates not in `holidays`. -/
def courseDatesFrom (holidays : List ℤ) (e : ℤ) (cur : ℤ) : List ℤ :=
  if cur ≤ e then
    (if cur ∈ holidays then [] else [cur]) ++ courseDatesFrom holidays e (cur + 7)
  else []
termination_by (e + 1 - cur).toNat
decreasing_by omega

/-- The loop of `get_skipped_dates_due_to_holidays`: step weekly from
`cur`, keeping the dates that are in `holidays`. -/
def skippedDatesFrom (holidays : List ℤ) (e : ℤ) (cur : ℤ) : List ℤ :=
  if cur ≤ e then
    (if cur ∈ holidays then [cur] else []) ++ skippedDatesFrom holidays e (cur + 7)
  else []
termination_by (e + 1 - cur).toNat
decreasing_by omega

/-- `CourseScheduleCalculator.get_course_dates`: all weekly course dates in
`[start_date, end_date]` that are not holidays.  The `weekday` argument is
unused, exactly as in the source. -/
def get_course_dates (cal : ℤ → List ℤ) (yearOf : ℤ → ℤ)
    (start_date end_date _weekday : ℤ) : List ℤ :=
  courseDatesFrom (get_holidays_in_range cal yearOf (some start_date) (some end_date))
    end_date start_date

/-- `CourseScheduleCalculator.get_skipped_dates_due_to_holidays`. -/
def get_skipped_dates_due_to_holidays (cal : ℤ → List ℤ) (yearOf : ℤ → ℤ)
    (start_date end_date _weekday : ℤ) : List ℤ :=
  skippedDatesFrom (get_holidays_in_range cal yearOf (some start_date) (some end_date))
    end_date start_date

/-- Specification-side description of the weekly candidate dates:
`start + 7k` for `k = 0, 1, …` while `≤ end`. -/
def weeklyCandidates (s e : ℤ) : List ℤ :=
  if s ≤ e then (List.range ((e - s).toNat / 7 + 1)).map (fun k : ℕ => s + 7 * (k : ℤ))
  else []

/-! ## Theorems -/

/-- C5: the tax calculator returns tax 0 when the amount is null or the
invoice is tax-exempt, and otherwise `round(amount * tax_rate / 100, 2)`;
the total is 0 when the amount is null and otherwise `round(amount + tax, 2)`;
for amount 33.33, tax_rate 19.00, not exempt, the tax is 6.33 (not 6.3327)
and the total is 39.66. -/
theorem tax_calculator_spec :
    (∀ tax_rate ex, TaxCalculator.calculate_tax_amount none tax_rate ex = 0)
    ∧ (∀ a tax_rate, TaxCalculator.calculate_tax_amount (some a) tax_rate true = 0)
    ∧ (∀ a tax_rate, TaxCalculator.calculate_tax_amount (some a) tax_rate false
        = quantize2 (a * tax_rate / 100))
    ∧ (∀ tax_rate ex, TaxCalculator.calculate_total none tax_rate ex = 0)
    ∧ (∀ a tax_rate ex, TaxCalculator.calculate_total (some a) tax_rate ex
        = quantize2 (a + TaxCalculator.calculate_tax_amount (some a) tax_rate ex))
    ∧ TaxCalculator.calculate_tax_amount (some (3333/100)) 19 false = 633/100
    ∧ TaxCalculator.calculate_tax_amount (some (3333/100)) 19 false ≠ 63327/10000
    ∧ TaxCalculator.calculate_total (some (3333/100)) 19 false = 3966/100 := by
  refine ⟨fun _ _ => rfl, fun _ _ => rfl, fun _ _ => rfl, fun _ _ => rfl,
    fun _ _ _ => rfl, ?_, ?_, ?_⟩
  · norm_num [TaxCalculator.calculate_tax_amount, quantize2, roundHalfEven]
  · norm_num [TaxCalculator.calculate_tax_amount, quantize2, roundHalfEven]
  · norm_num [TaxCalculator.calculate_total, TaxCalculator.calculate_tax_amount,
      quantize2, roundHalfEven]

/-- C6: discount code validation checks status `used`, then `cancelled`,
then `expired`, then the date window; it reports "not yet valid" exactly
when no status check fails and today is before `valid_from`, and
"expired" by date exactly when no status check fails and today is after
`valid_until`; the window is inclusive on both ends, so the code is valid
on `valid_from` and on `valid_until` themselves. -/
theorem discount_validator_spec :
    ∀ (code : CustomerDiscountCode) (today : ℤ),
      (code.status = .used →
        DiscountCodeValidator.validate code today = (false, "Code wurde bereits verwendet"))
      ∧ (code.status ≠ .used → code.status = .cancelled →
        DiscountCodeValidator.validate code today = (false, "Code wurde storniert"))
      ∧ (code.status ≠ .used → code.status ≠ .cancelled → code.status = .expired →
        DiscountCodeValidator.validate code today = (false, "Code ist abgelaufen"))
      ∧ ((DiscountCodeValidator.validate code today).2 = "Code ist noch nicht gültig" ↔
          code.status ≠ .used ∧ code.status ≠ .cancelled ∧ code.status ≠ .expired ∧
            today < code.valid_from)
      ∧ (code.status ≠ .used → code.status ≠ .cancelled → code.status ≠ .expired →
          code.valid_from ≤ code.valid_until →
          (DiscountCodeValidator.validate code today = (false, "Code ist abgelaufen") ↔
            code.valid_until < today))
      ∧ (code.status ≠ .used → code.status ≠ .cancelled → code.status ≠ .expired →
          code.valid_from ≤ today → today ≤ code.valid_until →
          DiscountCodeValidator.validate code today = (true, "Code ist gültig"))
      ∧ (code.status ≠ .used → code.status ≠ .cancelled → code.status ≠ .expired →
          code.valid_from ≤ code.valid_until →
          DiscountCodeValidator.validate code code.valid_from = (true, "Code ist gültig")
          ∧ DiscountCodeValidator.validate code code.valid_until = (true, "Code ist gültig")) := by
  intro code today
  refine ⟨?_, ?_, ?_, ?_, ?_, ?_, ?_⟩
  · intro h; simp [DiscountCodeValidator.validate, h]
  · intro h1 h2; simp [DiscountCodeValidator.validate, h1, h2]
  · intro h1 h2 h3; simp [DiscountCodeValidator.validate, h1, h2, h3]
  · unfold DiscountCodeValidator.validate
    split_ifs
    all_goals simp_all
  · intro h1 h2 h3 h0
    unfold DiscountCodeValidator.validate
    split_ifs
    all_goals simp_all
    all_goals omega
  · intro h1 h2 h3 h4 h5
    simp [DiscountCodeValidator.validate, h1, h2, h3, h4, h5]
  · intro h1 h2 h3 h4
    constructor <;>
      simp [DiscountCodeValidator.validate, h1, h2, h3, h4, le_refl]

/-- Witness for C6 at concrete codes and dates. -/
theorem discount_validator_spec_witness :
    DiscountCodeValidator.validate ⟨.percentage, 10, .used, 0, 10⟩ 5
      = (false, "Code wurde bereits verwendet")
    ∧ DiscountCodeValidator.validate ⟨.percentage, 10, .sent, 0, 10⟩ 0
      = (true, "Code ist gültig")
    ∧ DiscountCodeValidator.validate ⟨.percentage, 10, .sent, 0, 10⟩ 10
      = (true, "Code ist gültig")
    ∧ DiscountCodeValidator.validate ⟨.percentage, 10, .sent, 0, 10⟩ 11
      = (false, "Code ist abgelaufen") :=
  ⟨(discount_validator_spec ⟨.percentage, 10, .used, 0, 10⟩ 5).1 rfl,
   ((discount_validator_spec ⟨.percentage, 10, .sent, 0, 10⟩ 0).2.2.2.2.2.1)
     (by decide) (by decide) (by decide) (by decide) (by decide),
   ((discount_validator_spec ⟨.percentage, 10, .sent, 0, 10⟩ 10).2.2.2.2.2.1)
     (by decide) (by decide) (by decide) (by decide) (by decide),
   (((discount_validator_spec ⟨.percentage, 10, .sent, 0, 10⟩ 11).2.2.2.2.1)
     (by decide) (by decide) (by decide) (by decide)).mpr (by decide)⟩

/-- A rational with denominator 1 is an integer. -/
theorem exists_int_of_den_one {q : ℚ} (h : q.den = 1) : ∃ n : ℤ, q = (n : ℚ) :=
  ⟨q.num, ((Rat.den_eq_one_iff q).mp h).symm⟩

/-- The product of two integer-valued rationals is integer-valued. -/
theorem den_one_mul {x y : ℚ} (hx : x.den = 1) (hy : y.den = 1) : (x * y).den = 1 := by
  obtain ⟨m, rfl⟩ := exists_int_of_den_one hx
  obtain ⟨n, rfl⟩ := exists_int_of_den_one hy
  rw [← Int.cast_mul]
  exact Rat.den_intCast (m * n)

/-- A value with at most two decimals also has at most four. -/
theorem hasAtMost4Decimals_of_2 {q : ℚ} (h : hasAtMost2Decimals q) :
    hasAtMost4Decimals q := by
  unfold hasAtMost2Decimals at h
  unfold hasAtMost4Decimals
  have : q * 10000 = (q * 100) * 100 := by ring
  rw [this]
  exact den_one_mul h (by norm_num)

/-- A rational has at most six fractional decimal digits. -/
def hasAtMost6Decimals (q : ℚ) : Prop := (q * 1000000).den = 1

@[simp] theorem initialize_course (today : ℤ) (inv : Invoice) :
    (InvoiceInitializer.initialize_fields today inv).course = inv.course := rfl

@[simp] theorem initialize_offer (today : ℤ) (inv : Invoice) :
    (InvoiceInitializer.initialize_fields today inv).offer = inv.offer := rfl

@[simp] theorem initialize_discount_code (today : ℤ) (inv : Invoice) :
    (InvoiceInitializer.initialize_fields today inv).discount_code = inv.discount_code := rfl

@[simp] theorem initialize_original_amount (today : ℤ) (inv : Invoice) :
    (InvoiceInitializer.initialize_fields today inv).original_amount = inv.original_amount := rfl

@[simp] theorem initialize_amount (today : ℤ) (inv : Invoice) :
    (InvoiceInitializer.initialize_fields today inv).amount = resolveAmount inv := rfl

@[simp] theorem initialize_issue_date (today : ℤ) (inv : Invoice) :
    (InvoiceInitializer.initialize_fields today inv).issue_date
      = some (InvoiceDateManager.get_issue_date inv.issue_date today) := rfl

@[simp] theorem initialize_due_date (today : ℤ) (inv : Invoice) :
    (InvoiceInitializer.initialize_fields today inv).due_date
      = some (InvoiceDateManager.get_due_date inv.due_date
          (some (InvoiceDateManager.get_issue_date inv.issue_date today)) today) := rfl

/-- The discount amount `Invoice.save` computes in step 4 from the attached
code and the resolved original amount. -/
def discountFor (code? : Option CustomerDiscountCode) (orig : ℚ) : ℚ :=
  match code? with
  | some code => code.calculate_discount orig
  | none => 0

/-- Characterisation of a successful `Invoice.save`. -/
theorem save_ok_elim {today : ℤ} {inv inv' : Invoice}
    (h : Invoice.save today inv = .ok inv') :
    ∃ orig : ℚ,
      (if falsyQ inv.original_amount
        then resolveAmount inv
        else inv.original_amount) = some orig
      ∧ inv' = { InvoiceInitializer.initialize_fields today inv with
                 original_amount := some orig
                 discount_amount := discountFor inv.discount_code orig
                 amount := some (orig - discountFor inv.discount_code orig) } := by
  unfold Invoice.save at h
  split at h
  · exact absurd h (by simp)
  · simp only [initialize_original_amount, initialize_amount, initialize_discount_code] at h
    split at h
    · exact absurd h (by simp)
    · next orig heq =>
      refine ⟨orig, heq, ?_⟩
      injection h with h'
      subst h'
      rfl

/-! ### Concrete objects used by counterexamples and witnesses -/

/-- An offer priced at 100.00 €. -/
def offerPilates : Offer := { total_amount := some 100, title := "Pilates Kurs" }

/-- A course priced at 100.00 € (price is the offer's total amount). -/
def coursePilates : Course :=
  { price := some 100, offer := some offerPilates, title := "Pilates Kurs" }

/-- A fresh draft invoice for `coursePilates`, before its first save. -/
def baseInvoice : Invoice :=
  { invoice_number := "2025-001", course := some coursePilates, offer := none,
    discount_code := none, issue_date := none, due_date := none,
    amount := none, original_amount := none, discount_amount := 0,
    tax_rate := 0, is_tax_exempt := true, status := .draft,
    cancelled_at := none, cancelled_invoice_number := none }

/-- A usable 10 % percentage discount code. -/
def codePct10 : CustomerDiscountCode :=
  { discount_type := .percentage, discount_value := 10, status := .sent,
    valid_from := 0, valid_until := 36500 }

/-- A usable fixed 5.00 € discount code. -/
def codeFixed5 : CustomerDiscountCode :=
  { discount_type := .fixed, discount_value := 5, status := .sent,
    valid_from := 0, valid_until := 36500 }

/-- An invoice whose caller-set amount is 33.33 €, carrying the 10 % code. -/
def invoice3333 : Invoice :=
  { baseInvoice with amount := some (3333/100), discount_code := some codePct10 }

/-- The state of `invoice3333` after `save` on day 0: the 10 % discount on
33.33 is stored as 3.333, three fractional digits, unrounded. -/
def invoice3333saved : Invoice :=
  { invoice3333 with
    issue_date := some 0
    due_date := some 14
    original_amount := some (3333/100)
    discount_amount := 3333/1000
    amount := some (3333/100 - 3333/1000) }

/-- C8 counterexample: `calculate_discount` applies no rounding — a 10 %
percentage discount on a base amount of 33.33 is 3.333, which has three
fractional digits, and invoice save stores exactly this unrounded value as
`discount_amount`. -/
theorem discount_rounding_counterexample :
    CustomerDiscountCode.calculate_discount codePct10 (3333/100) = 3333/1000
    ∧ ¬ hasAtMost2Decimals (3333/1000)
    ∧ Invoice.save 0 invoice3333 = .ok invoice3333saved
    ∧ invoice3333saved.discount_amount = 3333/1000 := by
  refine ⟨by norm_num [CustomerDiscountCode.calculate_discount, codePct10], ?_, ?_, ?_⟩
  · intro hc
    obtain ⟨n, hn⟩ := exists_int_of_den_one hc
    have h1 : (3333:ℚ)/1000 * 100 = 3333/10 := by norm_num
    rw [h1] at hn
    have h2 : (3333:ℚ) = 10 * n := by
      field_simp at hn
      linarith
    have h3 : (3333:ℤ) = 10 * n := by exact_mod_cast h2
    omega
  · norm_num [Invoice.save, InvoiceInitializer.initialize_fields, resolveAmount, falsyQ,
      offerAmount, invoice3333, invoice3333saved, baseInvoice, codePct10, coursePilates,
      offerPilates, CustomerDiscountCode.calculate_discount,
      InvoiceDateManager.get_issue_date, InvoiceDateManager.get_due_date]
  · norm_num [invoice3333saved]

/-- C8 amended: `calculate_discount` applies no rounding at all.  A
percentage discount is the exact product `base * (value / 100)` (at most
six fractional digits when base and value have at most two, and possibly
more than two, as the counterexample shows); a fixed discount is
`min(value, base)`, which does stay within two fractional digits; and
invoice save stores the unrounded result as `discount_amount`. -/
theorem discount_amount_unrounded :
    ∀ (code : CustomerDiscountCode) (base : ℚ),
      (code.discount_type = .percentage →
        code.calculate_discount base = base * (code.discount_value / 100))
      ∧ (code.discount_type = .fixed →
        code.calculate_discount base = min code.discount_value base)
      ∧ (hasAtMost2Decimals base → hasAtMost2Decimals code.discount_value →
          hasAtMost6Decimals (code.calculate_discount base))
      ∧ (code.discount_type = .fixed → hasAtMost2Decimals base →
          hasAtMost2Decimals code.discount_value →
          hasAtMost2Decimals (code.calculate_discount base))
      ∧ (∀ (today : ℤ) (inv inv' : Invoice),
          inv.discount_code = some code → Invoice.save today inv = .ok inv' →
          ∃ o, inv'.original_amount = some o
            ∧ inv'.discount_amount = code.calculate_discount o) := by
  intro code base
  refine ⟨?_, ?_, ?_, ?_, ?_⟩
  · intro h; simp [CustomerDiscountCode.calculate_discount, h]
  · intro h; simp [CustomerDiscountCode.calculate_discount, h]
  · intro hb hv
    unfold CustomerDiscountCode.calculate_discount
    cases h : code.discount_type
    · unfold hasAtMost6Decimals
      have : base * (code.discount_value / 100) * 1000000
          = (base * 100) * (code.discount_value * 100) := by ring
      rw [this]
      exact den_one_mul hb hv
    · have h2 : hasAtMost2Decimals (min code.discount_value base) := by
        unfold hasAtMost2Decimals at hb hv ⊢
        rcases le_total code.discount_value base with hle | hle
        · rw [min_eq_left hle]; exact hv
        · rw [min_eq_right hle]; exact hb
      exact hasAtMost4Decimals_of_2 h2 |> fun h4 => by
        unfold hasAtMost4Decimals at h4
        unfold hasAtMost6Decimals
        have : min code.discount_value base * 1000000
            = (min code.discount_value base * 10000) * 100 := by ring
        rw [this]
        exact den_one_mul h4 (by norm_num)
  · intro h hb hv
    unfold CustomerDiscountCode.calculate_discount
    rw [h]
    unfold hasAtMost2Decimals at hb hv ⊢
    rcases le_total code.discount_value base with hle | hle
    · rw [min_eq_left hle]; exact hv
    · rw [min_eq_right hle]; exact hb
  · intro today inv inv' hcode hsave
    obtain ⟨orig, _, rfl⟩ := save_ok_elim hsave
    exact ⟨orig, rfl, by simp [discountFor, hcode]⟩

/-- Witness for the amended C8 at the concrete fixed code and base. -/
theorem discount_amount_unrounded_witness :
    CustomerDiscountCode.calculate_discount codeFixed5 (3333/100)
      = min codeFixed5.discount_value (3333/100)
    ∧ hasAtMost2Decimals (CustomerDiscountCode.calculate_discount codeFixed5 (3333/100)) :=
  ⟨(discount_amount_unrounded codeFixed5 (3333/100)).2.1 rfl,
   (discount_amount_unrounded codeFixed5 (3333/100)).2.2.2.1 rfl
     (by norm_num [hasAtMost2Decimals]) (by norm_num [hasAtMost2Decimals, codeFixed5])⟩

/-- `baseInvoice` after `save` on day 0: price resolved from the course,
issue date defaulted to today (0), due date to today + 14. -/
def baseInvoiceSaved : Invoice :=
  { baseInvoice with
    amount := some 100
    original_amount := some 100
    issue_date := some 0
    due_date := some 14 }

/-- An invoice whose caller explicitly set `due_date` before `issue_date`. -/
def invoiceEarlyDue : Invoice :=
  { baseInvoice with issue_date := some 100, due_date := some 50 }

/-- The state of `invoiceEarlyDue` after `save`: both explicit dates are
kept as given, so `due_date < issue_date`. -/
def invoiceEarlyDueSaved : Invoice :=
  { invoiceEarlyDue with
    amount := some 100
    original_amount := some 100 }

/-- C9 counterexample: an explicitly set due date is taken as-is, with no
check against the issue date — saving an invoice with `issue_date = 100`
and `due_date = 50` succeeds and keeps `due_date < issue_date`. -/
theorem due_date_counterexample :
    Invoice.save 0 invoiceEarlyDue = .ok invoiceEarlyDueSaved
    ∧ invoiceEarlyDueSaved.issue_date = some 100
    ∧ invoiceEarlyDueSaved.due_date = some 50
    ∧ ¬ (100:ℤ) ≤ 50 := by
  refine ⟨?_, by norm_num [invoiceEarlyDueSaved, invoiceEarlyDue, baseInvoice],
    by norm_num [invoiceEarlyDueSaved, invoiceEarlyDue, baseInvoice], by norm_num⟩
  norm_num [Invoice.save, InvoiceInitializer.initialize_fields, resolveAmount, falsyQ,
    offerAmount, invoiceEarlyDue, invoiceEarlyDueSaved, baseInvoice, coursePilates,
    offerPilates, InvoiceDateManager.get_issue_date, InvoiceDateManager.get_due_date]

/-- C9 amended: when `due_date` is unset at save time it defaults to
`issue_date + 14` (which is ≥ the issue date), and `issue_date` defaults
to today when unset; but an explicitly set `due_date` is stored as given,
even when it precedes `issue_date`, so `due_date ≥ issue_date` is not
enforced for caller-supplied due dates. -/
theorem invoice_date_defaults :
    ∀ (today : ℤ) (inv inv' : Invoice), Invoice.save today inv = .ok inv' →
      (inv.due_date = none →
        ∃ i, inv'.issue_date = some i ∧ inv'.due_date = some (i + 14) ∧ i ≤ i + 14)
      ∧ (inv.issue_date = none → inv'.issue_date = some today)
      ∧ (∀ i, inv.issue_date = some i → inv'.issue_date = some i)
      ∧ (∀ d, inv.due_date = some d → inv'.due_date = some d) := by
  intro today inv inv' hsave
  obtain ⟨orig, horig, rfl⟩ := save_ok_elim hsave
  refine ⟨?_, ?_, ?_, ?_⟩
  · intro hdue
    exact ⟨InvoiceDateManager.get_issue_date inv.issue_date today, by simp,
      by simp [InvoiceDateManager.get_due_date, InvoiceDateManager.get_issue_date, hdue],
      by omega⟩
  · intro hissue
    simp [InvoiceDateManager.get_issue_date, hissue]
  · intro i hi
    simp [InvoiceDateManager.get_issue_date, hi]
  · intro d hd
    simp [InvoiceDateManager.get_due_date, hd]

/-- Witness for the amended C9: saving `baseInvoice` (no dates set) on day
0 yields issue date 0 and due date 0 + 14. -/
theorem invoice_date_defaults_witness :
    ∃ i, baseInvoiceSaved.issue_date = some i
      ∧ baseInvoiceSaved.due_date = some (i + 14) ∧ i ≤ i + 14 :=
  (invoice_date_defaults 0 baseInvoice baseInvoiceSaved
    (by norm_num [Invoice.save, InvoiceInitializer.initialize_fields, resolveAmount, falsyQ,
      offerAmount, baseInvoice, baseInvoiceSaved, coursePilates, offerPilates,
      InvoiceDateManager.get_issue_date, InvoiceDateManager.get_due_date])).1 rfl

/-- A zero-priced course (its offer's total amount is 0.00, so the derived
course price is 0.00, which is falsy in Python). -/
def offerGratis : Offer := { total_amount := some 0, title := "Gratis Angebot" }

/-- A course whose derived price is 0.00. -/
def courseGratis : Course :=
  { price := some 0, offer := some offerGratis, title := "Gratis Angebot" }

/-- An invoice over the zero-priced course, caller-set amount 0. -/
def invoiceZero : Invoice :=
  { baseInvoice with course := some courseGratis, amount := some 0 }

/-- `invoiceZero` after its first save: `original_amount` is 0. -/
def invoiceZeroSaved : Invoice :=
  { invoiceZero with
    issue_date := some 0
    due_date := some 14
    original_amount := some 0
    amount := some 0 }

/-- `invoiceZeroSaved` with `amount` externally mutated to 50 before the
second save. -/
def invoiceZeroMutated : Invoice :=
  { invoiceZeroSaved with amount := some 50 }

/-- `invoiceZeroMutated` after the second save: because a stored
`original_amount` of 0 is falsy, it is overwritten from the mutated amount. -/
def invoiceZeroMutatedSaved : Invoice :=
  { invoiceZeroMutated with
    original_amount := some 50
    amount := some 50 }

/-- C2 counterexample: `original_amount` is guarded by Python truthiness,
not by "was it ever set" — an invoice whose first save stored
`original_amount = 0` gets it overwritten (0 → 50) on a later save after
`amount` is externally mutated to 50. -/
theorem original_amount_counterexample :
    Invoice.save 0 invoiceZero = .ok invoiceZeroSaved
    ∧ invoiceZeroSaved.original_amount = some 0
    ∧ Invoice.save 0 invoiceZeroMutated = .ok invoiceZeroMutatedSaved
    ∧ invoiceZeroMutatedSaved.original_amount = some 50 := by
  refine ⟨?_, by norm_num [invoiceZeroSaved, invoiceZero, baseInvoice], ?_,
    by norm_num [invoiceZeroMutatedSaved, invoiceZeroMutated, invoiceZeroSaved,
      invoiceZero, baseInvoice]⟩
  · norm_num [Invoice.save, InvoiceInitializer.initialize_fields, resolveAmount, falsyQ,
      offerAmount, invoiceZero, invoiceZeroSaved, baseInvoice, courseGratis,
      offerGratis, InvoiceDateManager.get_issue_date, InvoiceDateManager.get_due_date]
  · norm_num [Invoice.save, InvoiceInitializer.initialize_fields, resolveAmount, falsyQ,
      offerAmount, invoiceZeroMutated, invoiceZeroMutatedSaved, invoiceZeroSaved,
      invoiceZero, baseInvoice, courseGratis, offerGratis,
      InvoiceDateManager.get_issue_date, InvoiceDateManager.get_due_date]

/-- C2 amended: after every successful save,
`amount = original_amount - discount_amount`; a nonzero stored
`original_amount` is never overwritten (even if `amount` was externally
mutated before the save); but `original_amount` is (re)set from the
resolved amount whenever it is unset **or zero** at save time. -/
theorem invoice_amount_invariant :
    ∀ (today : ℤ) (inv inv' : Invoice), Invoice.save today inv = .ok inv' →
      (∃ o, inv'.original_amount = some o
        ∧ inv'.amount = some (o - inv'.discount_amount))
      ∧ (∀ o, inv.original_amount = some o → o ≠ 0 → inv'.original_amount = some o)
      ∧ (falsyQ inv.original_amount = true → inv'.original_amount = resolveAmount inv) := by
  intro today inv inv' hsave
  obtain ⟨orig, horig, rfl⟩ := save_ok_elim hsave
  refine ⟨⟨orig, rfl, rfl⟩, ?_, ?_⟩
  · intro o ho hne
    rw [ho] at horig
    rw [show falsyQ (some o) = false by simp [falsyQ, hne]] at horig
    simp only [if_neg Bool.false_ne_true] at horig
    simpa using horig.symm
  · intro hf
    rw [hf] at horig
    simp only [if_pos rfl] at horig
    simpa using horig.symm

/-- Introduction form of a successful `Invoice.save`. -/
theorem save_ok_intro (today : ℤ) (inv : Invoice) (orig : ℚ)
    (hguard : (inv.course.isNone && inv.offer.isNone) = false)
    (horig : (if falsyQ inv.original_amount
        then resolveAmount inv else inv.original_amount) = some orig) :
    Invoice.save today inv
      = .ok { InvoiceInitializer.initialize_fields today inv with
              original_amount := some orig
              discount_amount := discountFor inv.discount_code orig
              amount := some (orig - discountFor inv.discount_code orig) } := by
  unfold Invoice.save
  rw [if_neg (by simp [hguard])]
  simp only [initialize_original_amount, initialize_amount, initialize_discount_code]
  rw [horig]
  rfl

/-- A successful save implies the course/offer guard passed. -/
theorem save_ok_guard {today : ℤ} {inv inv' : Invoice}
    (h : Invoice.save today inv = .ok inv') :
    (inv.course.isNone && inv.offer.isNone) = false := by
  unfold Invoice.save at h
  split at h
  · exact absurd h (by simp)
  · next hg => exact Bool.eq_false_iff.mpr hg

/-- A 10 % percentage code whose status is `used` and whose window is over. -/
def codeUsed10 : CustomerDiscountCode :=
  { discount_type := .percentage, discount_value := 10, status := .used,
    valid_from := 0, valid_until := 10 }

/-- `baseInvoice` carrying the spent `codeUsed10`. -/
def invoiceUsedCode : Invoice :=
  { baseInvoice with discount_code := some codeUsed10 }

/-- `invoiceUsedCode` after save on day 500 (outside the code's window):
the discount is applied anyway. -/
def invoiceUsedCodeSaved : Invoice :=
  { invoiceUsedCode with
    issue_date := some 500
    due_date := some 514
    original_amount := some 100
    discount_amount := 10
    amount := some 90 }

/-- C10: invoice save applies an attached discount code without consulting
its validity: the stored discount is always `calculate_discount` of the
code and the resolved original amount; two codes agreeing on type and
value yield identical saved amounts regardless of status and date window;
and a concrete invalid (used, expired-by-date) 10 % code still reduces a
100.00 invoice to 90.00 on day 500. -/
theorem discount_applied_without_validation :
    (∀ (today : ℤ) (inv inv' : Invoice) (code : CustomerDiscountCode),
        inv.discount_code = some code → Invoice.save today inv = .ok inv' →
        ∃ o, inv'.original_amount = some o
          ∧ inv'.discount_amount = code.calculate_discount o
          ∧ inv'.amount = some (o - code.calculate_discount o))
    ∧ (∀ (today : ℤ) (inv : Invoice) (c₁ c₂ : CustomerDiscountCode) (inv₁' : Invoice),
        c₁.discount_type = c₂.discount_type → c₁.discount_value = c₂.discount_value →
        Invoice.save today { inv with discount_code := some c₁ } = .ok inv₁' →
        ∃ inv₂', Invoice.save today { inv with discount_code := some c₂ } = .ok inv₂'
          ∧ inv₂'.amount = inv₁'.amount
          ∧ inv₂'.discount_amount = inv₁'.discount_amount
          ∧ inv₂'.original_amount = inv₁'.original_amount)
    ∧ DiscountCodeValidator.validate codeUsed10 500 = (false, "Code wurde bereits verwendet")
    ∧ Invoice.save 500 invoiceUsedCode = .ok invoiceUsedCodeSaved
    ∧ invoiceUsedCodeSaved.discount_amount = 10
    ∧ invoiceUsedCodeSaved.amount = some 90 := by
  refine ⟨?_, ?_, by norm_num [DiscountCodeValidator.validate, codeUsed10], ?_,
    by norm_num [invoiceUsedCodeSaved, invoiceUsedCode, baseInvoice],
    by norm_num [invoiceUsedCodeSaved, invoiceUsedCode, baseInvoice]⟩
  · intro today inv inv' code hcode hsave
    obtain ⟨orig, _, rfl⟩ := save_ok_elim hsave
    exact ⟨orig, rfl, by simp [discountFor, hcode], by simp [discountFor, hcode]⟩
  · intro today inv c₁ c₂ inv₁' ht hv hsave
    have hcalc : ∀ o, c₂.calculate_discount o = c₁.calculate_discount o := by
      intro o
      unfold CustomerDiscountCode.calculate_discount
      rw [ht, hv]
    have hg := save_ok_guard hsave
    obtain ⟨orig, horig, rfl⟩ := save_ok_elim hsave
    refine ⟨_, save_ok_intro today { inv with discount_code := some c₂ } orig hg horig,
      ?_, ?_, ?_⟩
    · simp [discountFor, hcalc orig]
    · simp [discountFor, hcalc orig]
    · rfl
  · norm_num [Invoice.save, InvoiceInitializer.initialize_fields, resolveAmount, falsyQ,
      offerAmount, invoiceUsedCode, invoiceUsedCodeSaved, baseInvoice, codeUsed10,
      coursePilates, offerPilates, CustomerDiscountCode.calculate_discount,
      InvoiceDateManager.get_issue_date, InvoiceDateManager.get_due_date]

/-- Witness for C10 at the concrete spent code. -/
theorem discount_applied_without_validation_witness :
    ∃ o, invoiceUsedCodeSaved.original_amount = some o
      ∧ invoiceUsedCodeSaved.discount_amount = codeUsed10.calculate_discount o
      ∧ invoiceUsedCodeSaved.amount = some (o - codeUsed10.calculate_discount o) :=
  discount_applied_without_validation.1 500 invoiceUsedCode invoiceUsedCodeSaved
    codeUsed10 rfl discount_applied_without_validation.2.2.2.1

@[simp] theorem falsyQ_none : falsyQ none = true := rfl

@[simp] theorem falsyQ_some_zero : falsyQ (some 0) = true := by simp [falsyQ]

theorem falsyQ_some_iff {x : ℚ} : falsyQ (some x) = true ↔ x = 0 := by simp [falsyQ]

/-- A nonnegative-valued code discounts a zero base to zero. -/
theorem calculate_discount_zero {code : CustomerDiscountCode}
    (h : 0 ≤ code.discount_value) : code.calculate_discount 0 = 0 := by
  unfold CustomerDiscountCode.calculate_discount
  cases code.discount_type
  · exact zero_mul _
  · exact min_eq_right h

/-- Step 4 of `save` computes a zero discount on a zero original amount,
provided the attached code (if any) has a nonnegative value. -/
theorem discountFor_zero {code? : Option CustomerDiscountCode}
    (h : ∀ c, code? = some c → 0 ≤ c.discount_value) : discountFor code? 0 = 0 := by
  cases code? with
  | none => rfl
  | some c => exact calculate_discount_zero (h c rfl)

/-- When amount resolution yields a zero amount, it does so again for any
invoice with the same course and offer whose amount is (still) zero. -/
theorem resolveAmount_zero_stable {inv inv₂ : Invoice}
    (h : resolveAmount inv = some 0)
    (hc : inv₂.course = inv.course) (ho : inv₂.offer = inv.offer)
    (ha : inv₂.amount = some 0) : resolveAmount inv₂ = some 0 := by
  unfold resolveAmount at h ⊢
  rw [hc, ho, ha, if_pos falsyQ_some_zero]
  by_cases hfa : falsyQ inv.amount = true
  · rw [if_pos hfa] at h
    revert h
    cases inv.course with
    | some c =>
      dsimp only
      intro h
      by_cases hp : falsyQ c.price = true
      · rw [if_pos hp] at h ⊢
        revert h
        unfold offerAmount
        cases inv.offer with
        | some o =>
          dsimp only
          intro h
          by_cases hto : falsyQ o.total_amount = true
          · rw [if_pos hto]
          · rw [if_neg hto] at h
            rw [h] at hto
            exact absurd falsyQ_some_zero hto
        | none =>
          intro h
          rfl
      · rw [if_neg hp] at h
        rw [h] at hp
        exact absurd falsyQ_some_zero hp
    | none =>
      dsimp only
      intro h
      revert h
      unfold offerAmount
      cases inv.offer with
      | some o =>
        dsimp only
        intro h
        by_cases hto : falsyQ o.total_amount = true
        · rw [if_pos hto]
        · rw [if_neg hto] at h
          rw [h] at hto
          exact absurd falsyQ_some_zero hto
      | none =>
        intro h
        rfl
  · rw [if_neg hfa] at h
    rw [h] at hfa
    exact absurd falsyQ_some_zero hfa

/-- `baseInvoice` carrying the usable 10 % code, before its first save. -/
def invoicePct : Invoice :=
  { baseInvoice with discount_code := some codePct10 }

/-- `invoicePct` after its first save on day 0: 10 % off 100.00. -/
def invoicePctSaved : Invoice :=
  { invoicePct with
    issue_date := some 0
    due_date := some 14
    original_amount := some 100
    discount_amount := 10
    amount := some 90 }

/-- `invoicePctSaved` with the percentage code switched for the fixed
5.00 € code. -/
def invoiceSwitched : Invoice :=
  { invoicePctSaved with discount_code := some codeFixed5 }

/-- `invoiceSwitched` after re-saving: the discount is recomputed from the
immutable original amount 100.00, giving 95.00 (not 85.00). -/
def invoiceSwitchedSaved : Invoice :=
  { invoiceSwitched with
    discount_amount := 5
    amount := some 95 }

/-- C1: for every invoice whose attached code (if any) has a nonnegative
value, running save twice in succession with unchanged inputs yields
identical `amount`, `discount_amount` and `original_amount`; and switching
a 10 % percentage code for a fixed 5.00 € code on an invoice with
`original_amount` 100.00 and re-saving yields `discount_amount` 5.00 and
`amount` 95.00 (not 85.00), because step 4 recomputes from the immutable
`original_amount`. -/
theorem discount_idempotent_reevaluable :
    (∀ (today : ℤ) (inv inv1 : Invoice),
        (∀ code, inv.discount_code = some code → 0 ≤ code.discount_value) →
        Invoice.save today inv = .ok inv1 →
        ∃ inv2, Invoice.save today inv1 = .ok inv2
          ∧ inv2.amount = inv1.amount
          ∧ inv2.discount_amount = inv1.discount_amount
          ∧ inv2.original_amount = inv1.original_amount)
    ∧ Invoice.save 0 invoicePct = .ok invoicePctSaved
    ∧ invoicePctSaved.original_amount = some 100
    ∧ invoicePctSaved.discount_amount = 10
    ∧ invoicePctSaved.amount = some 90
    ∧ Invoice.save 0 invoiceSwitched = .ok invoiceSwitchedSaved
    ∧ invoiceSwitchedSaved.discount_amount = 5
    ∧ invoiceSwitchedSaved.amount = some 95
    ∧ invoiceSwitchedSaved.amount ≠ some 85 := by
  refine ⟨?_, ?_,
    by norm_num [invoicePctSaved, invoicePct, baseInvoice],
    by norm_num [invoicePctSaved, invoicePct, baseInvoice],
    by norm_num [invoicePctSaved, invoicePct, baseInvoice], ?_,
    by norm_num [invoiceSwitchedSaved, invoiceSwitched, invoicePctSaved, invoicePct,
      baseInvoice],
    by norm_num [invoiceSwitchedSaved, invoiceSwitched, invoicePctSaved, invoicePct,
      baseInvoice],
    by norm_num [invoiceSwitchedSaved, invoiceSwitched, invoicePctSaved, invoicePct,
      baseInvoice]⟩
  · intro today inv inv1 hval hsave
    have hg := save_ok_guard hsave
    obtain ⟨orig, horig, rfl⟩ := save_ok_elim hsave
    by_cases ho : orig = 0
    · subst ho
      have hval' : ∀ c, inv.discount_code = some c → 0 ≤ c.discount_value := hval
      have hd : discountFor inv.discount_code 0 = 0 := discountFor_zero hval'
      have hres : resolveAmount inv = some 0 := by
        by_cases hfo : falsyQ inv.original_amount = true
        · rw [if_pos hfo] at horig
          exact horig
        · rw [if_neg hfo] at horig
          rw [horig] at hfo
          exact absurd falsyQ_some_zero hfo
      have hres2 : resolveAmount
          { InvoiceInitializer.initialize_fields today inv with
            original_amount := some 0
            discount_amount := discountFor inv.discount_code 0
            amount := some (0 - discountFor inv.discount_code 0) } = some 0 := by
        apply resolveAmount_zero_stable hres
        · rfl
        · rfl
        · show some (0 - discountFor inv.discount_code 0) = some 0
          rw [hd]
          norm_num
      refine ⟨_, save_ok_intro today _ 0 hg (by rw [if_pos falsyQ_some_zero]; exact hres2),
        ?_, ?_, ?_⟩
      · show some (0 - discountFor inv.discount_code 0)
          = some (0 - discountFor inv.discount_code 0)
        rfl
      · rfl
      · rfl
    · have hfo : falsyQ (some orig) = false := by
        simp [falsyQ, ho]
      refine ⟨_, save_ok_intro today _ orig hg (by rw [hfo]; simp), ?_, ?_, ?_⟩
      · rfl
      · rfl
      · rfl
  · norm_num [Invoice.save, InvoiceInitializer.initialize_fields, resolveAmount, falsyQ,
      offerAmount, invoicePct, invoicePctSaved, baseInvoice, codePct10, coursePilates,
      offerPilates, CustomerDiscountCode.calculate_discount,
      InvoiceDateManager.get_issue_date, InvoiceDateManager.get_due_date]
  · norm_num [Invoice.save, InvoiceInitializer.initialize_fields, resolveAmount, falsyQ,
      offerAmount, invoiceSwitched, invoiceSwitchedSaved, invoicePctSaved, invoicePct,
      baseInvoice, codeFixed5, codePct10, coursePilates, offerPilates,
      CustomerDiscountCode.calculate_discount, InvoiceDateManager.get_issue_date,
      InvoiceDateManager.get_due_date]

/-- Witness for C1: re-saving the already-saved 10 %-discounted invoice
reproduces the same amounts. -/
theorem discount_idempotent_reevaluable_witness :
    ∃ inv2, Invoice.save 0 invoicePctSaved = .ok inv2
      ∧ inv2.amount = invoicePctSaved.amount
      ∧ inv2.discount_amount = invoicePctSaved.discount_amount
      ∧ inv2.original_amount = invoicePctSaved.original_amount :=
  discount_idempotent_reevaluable.1 0 invoicePct invoicePctSaved
    (fun code hc => by
      have hcode : code = codePct10 := by
        have h : (invoicePct.discount_code = some code) := hc
        simp only [invoicePct, baseInvoice] at h
        exact (Option.some.injEq _ _ ▸ h).symm
      rw [hcode]
      norm_num [codePct10])
    discount_idempotent_reevaluable.2.1

/-- Witness for the amended C2 at the concrete base invoice. -/
theorem invoice_amount_invariant_witness :
    ∃ o, baseInvoiceSaved.original_amount = some o
      ∧ baseInvoiceSaved.amount = some (o - baseInvoiceSaved.discount_amount) :=
  (invoice_amount_invariant 0 baseInvoice baseInvoiceSaved
    (by norm_num [Invoice.save, InvoiceInitializer.initialize_fields, resolveAmount, falsyQ,
      offerAmount, baseInvoice, baseInvoiceSaved, coursePilates, offerPilates,
      InvoiceDateManager.get_issue_date, InvoiceDateManager.get_due_date])).1

/-! ### Accounting lemmas -/

/-- A string containing prefix check gives substring containment. -/
theorem strContains_of_prefix {needle hay : String}
    (h : needle.data.isPrefixOf hay.data = true) : strContains needle hay = true := by
  unfold strContains
  rw [List.any_eq_true]
  exact ⟨hay.data, (List.mem_tails _ _).mpr (List.suffix_refl _), h⟩

/-- Every reversal description produced by the deriver contains the
`"Stornierung"` marker. -/
theorem strContains_storno (nr t : String) :
    strContains "Stornierung" ("Stornierung: Rechnung " ++ nr ++ " - " ++ t) = true := by
  apply strContains_of_prefix
  rw [List.isPrefixOf_iff_prefix]
  have h1 : "Stornierung".data <+: "Stornierung: Rechnung ".data := by decide
  have h2 : ("Stornierung: Rechnung " ++ nr ++ " - " ++ t).data
      = "Stornierung: Rechnung ".data ++ (nr.data ++ (" - ".data ++ t.data)) := by
    simp [String.data_append]
  rw [h2]
  exact h1.trans (List.prefix_append _ _)

/-- The fold underlying `firstByDateDesc` never forgets a candidate. -/
theorem firstByDateDesc_foldl_isSome (l : List AccountingEntry) :
    ∀ x : AccountingEntry,
      (l.foldl
        (fun acc e =>
          match acc with
          | none => some e
          | some a => if dateDescBefore e.date a.date then some e else acc)
        (some x)).isSome = true := by
  induction l with
  | nil => intro x; rfl
  | cons b l ih =>
    intro x
    dsimp only [List.foldl]
    by_cases h : dateDescBefore b.date x.date = true
    · rw [if_pos h]; exact ih b
    · rw [if_neg h]; exact ih x

/-- `queryset.first()` is `none` exactly on the empty store. -/
theorem firstByDateDesc_eq_none_iff (l : List AccountingEntry) :
    firstByDateDesc l = none ↔ l = [] := by
  cases l with
  | nil => simp [firstByDateDesc]
  | cons a l =>
    simp only [firstByDateDesc, List.foldl]
    constructor
    · intro h
      have := firstByDateDesc_foldl_isSome l a
      rw [h] at this
      exact absurd this (by simp)
    · intro h; exact absurd h (by simp)

/-- The store invariant maintained by the deriver: at most one income
entry and at most one reversal entry. -/
def StoreInv (s : List AccountingEntry) : Prop :=
  countIncome s ≤ 1 ∧ countReversal s ≤ 1

theorem countIncome_nil : countIncome [] = 0 := rfl

theorem countReversal_nil : countReversal [] = 0 := rfl

theorem countIncome_append (s t : List AccountingEntry) :
    countIncome (s ++ t) = countIncome s + countIncome t := by
  simp [countIncome, List.filter_append]

theorem countReversal_append (s t : List AccountingEntry) :
    countReversal (s ++ t) = countReversal s + countReversal t := by
  simp [countReversal, List.filter_append]

theorem countIncome_singleton (e : AccountingEntry) :
    countIncome [e] = if isIncome e then 1 else 0 := by
  unfold countIncome
  cases h : isIncome e <;> simp [List.filter, h]

theorem countReversal_singleton (e : AccountingEntry) :
    countReversal [e] = if isReversal e then 1 else 0 := by
  unfold countReversal
  cases h : isReversal e <;> simp [List.filter, h]

theorem countReversal_eq_zero_iff (s : List AccountingEntry) :
    countReversal s = 0 ↔ s.any isReversal = false := by
  simp [countReversal, List.length_eq_zero, List.filter_eq_nil_iff, List.any_eq_false]

/-- One handler invocation preserves the store invariant. -/
theorem step_preserves_StoreInv (today : ℤ) (inv : Invoice)
    {s : List AccountingEntry} (h : StoreInv s) :
    StoreInv (create_accounting_entry_from_invoice today inv s) := by
  unfold create_accounting_entry_from_invoice
  cases inv.status <;> dsimp only
  · exact ⟨by simp [countIncome], by simp [countReversal]⟩
  · exact ⟨by simp [countIncome], by simp [countReversal]⟩
  · cases hf : firstByDateDesc s with
    | some e => exact h
    | none =>
      rw [firstByDateDesc_eq_none_iff] at hf
      subst hf
      constructor
      · rw [countIncome_append, countIncome_nil, countIncome_singleton]
        simp [isIncome]
      · rw [countReversal_append, countReversal_nil, countReversal_singleton]
        simp [isReversal]
  · exact ⟨by simp [countIncome], by simp [countReversal]⟩
  · cases hf : firstByDateDesc (s.filter isIncome) with
    | none => exact h
    | some income =>
      dsimp only
      by_cases hrev : s.any isReversal = true
      · rw [if_pos hrev]
        exact h
      · rw [if_neg hrev]
        have h0 : countReversal s = 0 :=
          (countReversal_eq_zero_iff s).mpr (Bool.eq_false_iff.mpr hrev)
        constructor
        · rw [countIncome_append, countIncome_singleton]
          have h1 := h.1
          simp only [isIncome]
          simp
          omega
        · rw [countReversal_append, countReversal_singleton]
          simp only [isReversal]
          simp [strContains_storno]
          omega

/-- The income entry the deriver creates for a paid invoice. -/
def incomeEntryFor (inv : Invoice) : AccountingEntry :=
  { entry_type := "income"
    description := "Rechnung " ++ inv.invoice_number ++ " - " ++ get_invoice_title_safe inv
    amount := inv.total_amount
    date := inv.issue_date
    notes := "Automatisch von Rechnung " ++ inv.invoice_number }

/-- The reversal entry the deriver creates for a cancelled invoice whose
stored income entry is `income`. -/
def reversalEntryFor (today : ℤ) (inv : Invoice) (income : AccountingEntry) :
    AccountingEntry :=
  { entry_type := "expense"
    description := "Stornierung: Rechnung " ++ inv.invoice_number ++ " - "
      ++ get_invoice_title_safe inv
    amount := income.amount
    date := some (inv.cancelled_at.getD today)
    notes := "Storno-Nummer: " ++ stornoNumberOrNA inv.cancelled_invoice_number
      ++ " - Gegenbuchung zu Einnahme-Eintrag" }

theorem isReversal_reversalEntryFor (today : ℤ) (inv : Invoice)
    (income : AccountingEntry) :
    isReversal (reversalEntryFor today inv income) = true := by
  simp [isReversal, reversalEntryFor, strContains_storno]

/-- A paid invoice with an empty store books exactly its income entry. -/
theorem paid_step_empty (today : ℤ) (inv : Invoice) (h : inv.status = .paid) :
    create_accounting_entry_from_invoice today inv [] = [incomeEntryFor inv] := by
  unfold create_accounting_entry_from_invoice
  rw [h]
  rfl

/-- A paid invoice with any existing entry books nothing new. -/
theorem paid_step_nonempty (today : ℤ) (inv : Invoice) (h : inv.status = .paid)
    {s : List AccountingEntry} (hne : s ≠ []) :
    create_accounting_entry_from_invoice today inv s = s := by
  unfold create_accounting_entry_from_invoice
  rw [h]
  dsimp only
  cases hf : firstByDateDesc s with
  | some e => rfl
  | none => exact absurd ((firstByDateDesc_eq_none_iff s).mp hf) hne

/-- A cancelled invoice whose store already holds a reversal books nothing. -/
theorem cancelled_step_of_rev (today : ℤ) (inv : Invoice) (h : inv.status = .cancelled)
    {s : List AccountingEntry} (hrev : s.any isReversal = true) :
    create_accounting_entry_from_invoice today inv s = s := by
  unfold create_accounting_entry_from_invoice
  rw [h]
  dsimp only
  cases hf : firstByDateDesc (s.filter isIncome) with
  | none => rfl
  | some income =>
    dsimp only
    rw [if_pos hrev]

/-- A cancelled invoice with no income entry books nothing. -/
theorem cancelled_step_no_income (today : ℤ) (inv : Invoice)
    (h : inv.status = .cancelled) {s : List AccountingEntry}
    (hni : firstByDateDesc (s.filter isIncome) = none) :
    create_accounting_entry_from_invoice today inv s = s := by
  unfold create_accounting_entry_from_invoice
  rw [h]
  dsimp only
  rw [hni]

/-- A cancelled invoice with a stored income entry and no reversal yet
books exactly one reversal, over the income entry's stored amount. -/
theorem cancelled_step_creates (today : ℤ) (inv : Invoice)
    (h : inv.status = .cancelled) {s : List AccountingEntry}
    {income : AccountingEntry}
    (hinc : firstByDateDesc (s.filter isIncome) = some income)
    (hrev : s.any isReversal = false) :
    create_accounting_entry_from_invoice today inv s
      = s ++ [reversalEntryFor today inv income] := by
  unfold create_accounting_entry_from_invoice
  rw [h]
  dsimp only
  rw [hinc]
  dsimp only
  rw [if_neg (by rw [hrev]; exact Bool.false_ne_true)]
  rfl

/-- The store reached from no entries satisfies the invariant. -/
theorem runAccounting_StoreInv (today : ℤ) (saves : List Invoice) :
    StoreInv (runAccounting today saves) := by
  unfold runAccounting
  have step : ∀ (l : List Invoice) (s : List AccountingEntry), StoreInv s →
      StoreInv (l.foldl (fun st i => create_accounting_entry_from_invoice today i st) s) := by
    intro l
    induction l with
    | nil => exact fun s hs => hs
    | cons a l ih => exact fun s hs => ih _ (step_preserves_StoreInv today a hs)
  exact step saves [] ⟨by simp [countIncome], by simp [countReversal]⟩

/-- A store fixed by one handler invocation is fixed by any number of them. -/
theorem foldl_step_fixed (today : ℤ) (inv : Invoice) {s : List AccountingEntry}
    (hfix : create_accounting_entry_from_invoice today inv s = s) :
    ∀ n, (List.replicate n inv).foldl
      (fun st i => create_accounting_entry_from_invoice today i st) s = s := by
  intro n
  induction n with
  | zero => rfl
  | succ n ih =>
    rw [List.replicate_succ]
    dsimp only [List.foldl]
    rw [hfix]
    exact ih

/-- Saves accumulate: the store after `a ++ b` is the store after `a`,
stepped through `b`. -/
theorem runAccounting_append (today : ℤ) (a b : List Invoice) :
    runAccounting today (a ++ b)
      = b.foldl (fun st i => create_accounting_entry_from_invoice today i st)
          (runAccounting today a) := by
  simp [runAccounting, List.foldl_append]

/-- A cancelled save over a store satisfying the invariant that holds an
income entry leaves exactly one reversal, and a reversal is present
afterwards. -/
theorem cancelled_step_reversal_count (today : ℤ) (inv : Invoice)
    (h : inv.status = .cancelled) {s : List AccountingEntry}
    (hinv : StoreInv s) (hink : ∃ e ∈ s, isIncome e = true) :
    countReversal (create_accounting_entry_from_invoice today inv s) = 1
    ∧ (create_accounting_entry_from_invoice today inv s).any isReversal = true := by
  obtain ⟨e, he, hie⟩ := hink
  have hfil : s.filter isIncome ≠ [] :=
    List.ne_nil_of_mem (List.mem_filter.mpr ⟨he, hie⟩)
  obtain ⟨income, hinc⟩ : ∃ income, firstByDateDesc (s.filter isIncome) = some income := by
    cases hh : firstByDateDesc (s.filter isIncome) with
    | none => exact absurd ((firstByDateDesc_eq_none_iff _).mp hh) hfil
    | some x => exact ⟨x, rfl⟩
  by_cases hrev : s.any isReversal = true
  · rw [cancelled_step_of_rev today inv h hrev]
    refine ⟨?_, hrev⟩
    obtain ⟨r, hr, hrp⟩ := List.any_eq_true.mp hrev
    have hge : 1 ≤ countReversal s := by
      have hm : r ∈ s.filter isReversal := List.mem_filter.mpr ⟨hr, hrp⟩
      have hp := List.length_pos.mpr (List.ne_nil_of_mem hm)
      unfold countReversal
      omega
    exact Nat.le_antisymm hinv.2 hge
  · have hrev' : s.any isReversal = false := Bool.eq_false_iff.mpr hrev
    rw [cancelled_step_creates today inv h hinc hrev']
    constructor
    · rw [countReversal_append, countReversal_singleton,
        if_pos (isReversal_reversalEntryFor today inv income)]
      rw [(countReversal_eq_zero_iff s).mpr hrev']
    · rw [List.any_append]
      simp [isReversal_reversalEntryFor]

/-- C3: across any sequence of invoice saves starting from no entries, at
most one income entry (and at most one reversal) exists per invoice;
repeated saves of a paid invoice are idempotent and leave exactly one
income entry; repeated saves of a cancelled invoice are idempotent, and a
cancelled invoice whose store holds an income entry ends with exactly one
reversal entry, however often it is re-saved. -/
theorem accounting_entry_uniqueness :
    ∀ (today : ℤ) (saves : List Invoice) (inv : Invoice)
      (s : List AccountingEntry) (n : ℕ),
      countIncome (runAccounting today saves) ≤ 1
      ∧ countReversal (runAccounting today saves) ≤ 1
      ∧ (inv.status = .paid →
          create_accounting_entry_from_invoice today inv
              (create_accounting_entry_from_invoice today inv s)
            = create_accounting_entry_from_invoice today inv s)
      ∧ (inv.status = .paid →
          countIncome (runAccounting today (List.replicate (n + 1) inv)) = 1)
      ∧ (inv.status = .cancelled →
          create_accounting_entry_from_invoice today inv
              (create_accounting_entry_from_invoice today inv s)
            = create_accounting_entry_from_invoice today inv s)
      ∧ (inv.status = .cancelled →
          (∃ e ∈ runAccounting today saves, isIncome e = true) →
          countReversal
              (runAccounting today (saves ++ List.replicate (n + 1) inv)) = 1) := by
  intro today saves inv s n
  refine ⟨(runAccounting_StoreInv today saves).1, (runAccounting_StoreInv today saves).2,
    ?_, ?_, ?_, ?_⟩
  · intro h
    by_cases hs : s = []
    · subst hs
      rw [paid_step_empty today inv h]
      exact paid_step_nonempty today inv h (by simp)
    · rw [paid_step_nonempty today inv h hs, paid_step_nonempty today inv h hs]
  · intro h
    have hrun : runAccounting today (List.replicate (n + 1) inv) = [incomeEntryFor inv] := by
      unfold runAccounting
      rw [List.replicate_succ]
      dsimp only [List.foldl]
      rw [paid_step_empty today inv h]
      exact foldl_step_fixed today inv (paid_step_nonempty today inv h (by simp)) n
    rw [hrun, countIncome_singleton, if_pos (by simp [isIncome, incomeEntryFor])]
  · intro h
    cases hf : firstByDateDesc (s.filter isIncome) with
    | none =>
      rw [cancelled_step_no_income today inv h hf, cancelled_step_no_income today inv h hf]
    | some income =>
      by_cases hrev : s.any isReversal = true
      · rw [cancelled_step_of_rev today inv h hrev, cancelled_step_of_rev today inv h hrev]
      · have hrev' := Bool.eq_false_iff.mpr hrev
        rw [cancelled_step_creates today inv h hf hrev']
        apply cancelled_step_of_rev today inv h
        rw [List.any_append]
        simp [isReversal_reversalEntryFor]
  · intro h hink
    rw [runAccounting_append, List.replicate_succ]
    dsimp only [List.foldl]
    obtain ⟨h1, h2⟩ := cancelled_step_reversal_count today inv h
      (runAccounting_StoreInv today saves) hink
    rw [foldl_step_fixed today inv (cancelled_step_of_rev today inv h h2) n]
    exact h1

/-- `baseInvoiceSaved` marked paid. -/
def invoicePaid : Invoice := { baseInvoiceSaved with status := .paid }

/-- `invoicePaid` later cancelled on day 30. -/
def invoiceCancelled : Invoice :=
  { invoicePaid with status := .cancelled, cancelled_at := some 30 }

/-- Witness for C3: one paid invoice saved twice books one income entry;
cancelling it twice afterwards books exactly one reversal. -/
theorem accounting_entry_uniqueness_witness :
    countIncome (runAccounting 0 [invoicePaid]) ≤ 1
    ∧ countIncome (runAccounting 0 (List.replicate 2 invoicePaid)) = 1
    ∧ countReversal
        (runAccounting 0 ([invoicePaid] ++ List.replicate 2 invoiceCancelled)) = 1 := by
  have hrun : runAccounting 0 [invoicePaid] = [incomeEntryFor invoicePaid] := by
    unfold runAccounting
    dsimp only [List.foldl]
    exact paid_step_empty 0 invoicePaid rfl
  refine ⟨(accounting_entry_uniqueness 0 [invoicePaid] invoicePaid [] 0).1,
    (accounting_entry_uniqueness 0 [] invoicePaid [] 1).2.2.2.1 rfl,
    (accounting_entry_uniqueness 0 [invoicePaid] invoiceCancelled [] 1).2.2.2.2.2 rfl
      ⟨incomeEntryFor invoicePaid, by rw [hrun]; simp, by simp [isIncome, incomeEntryFor]⟩⟩

/-- C4: on a cancelled save, no reversal is created when no income entry
exists; when an income entry exists and no reversal exists yet, exactly
one reversal is appended, whose amount is the income entry's stored
amount and whose date is the cancellation timestamp's date, falling back
to today. -/
theorem cancellation_reversal_spec :
    ∀ (today : ℤ) (inv : Invoice) (entries : List AccountingEntry),
      inv.status = .cancelled →
      (firstByDateDesc (entries.filter isIncome) = none →
        create_accounting_entry_from_invoice today inv entries = entries)
      ∧ (∀ income, firstByDateDesc (entries.filter isIncome) = some income →
          countReversal entries = 0 →
          create_accounting_entry_from_invoice today inv entries
            = entries ++ [reversalEntryFor today inv income]
          ∧ (reversalEntryFor today inv income).amount = income.amount
          ∧ (reversalEntryFor today inv income).date = some (inv.cancelled_at.getD today)
          ∧ countReversal (create_accounting_entry_from_invoice today inv entries) = 1) := by
  intro today inv entries h
  refine ⟨cancelled_step_no_income today inv h, ?_⟩
  intro income hinc h0
  have hrev : entries.any isReversal = false := (countReversal_eq_zero_iff entries).mp h0
  have hc := cancelled_step_creates today inv h hinc hrev
  refine ⟨hc, rfl, rfl, ?_⟩
  rw [hc, countReversal_append, countReversal_singleton,
    if_pos (isReversal_reversalEntryFor today inv income), h0]

/-- Witness for C4: cancelling the concrete paid invoice over a store
holding its income entry appends exactly one reversal. -/
theorem cancellation_reversal_spec_witness :
    create_accounting_entry_from_invoice 0 invoiceCancelled [incomeEntryFor invoicePaid]
      = [incomeEntryFor invoicePaid]
        ++ [reversalEntryFor 0 invoiceCancelled (incomeEntryFor invoicePaid)]
    ∧ countReversal
        (create_accounting_entry_from_invoice 0 invoiceCancelled
          [incomeEntryFor invoicePaid]) = 1 := by
  have h := (cancellation_reversal_spec 0 invoiceCancelled [incomeEntryFor invoicePaid]
    rfl).2 (incomeEntryFor invoicePaid) rfl rfl
  exact ⟨h.1, h.2.2.2⟩

/-! ### Course schedule lemmas -/

/-- Specification-side form of the weekly loop: the candidate dates
`cur, cur+7, cur+14, …` while `≤ e`, before holiday filtering. -/
def candidatesFrom (e cur : ℤ) : List ℤ :=
  if cur ≤ e then cur :: candidatesFrom e (cur + 7) else []
termination_by (e + 1 - cur).toNat
decreasing_by omega

/-- The course-date loop is the candidate loop filtered to non-holidays. -/
theorem courseDatesFrom_eq_filter (H : List ℤ) (e cur : ℤ) :
    courseDatesFrom H e cur
      = (candidatesFrom e cur).filter (fun d => decide (d ∉ H)) := by
  rw [courseDatesFrom, candidatesFrom]
  by_cases h : cur ≤ e
  · rw [if_pos h, if_pos h, courseDatesFrom_eq_filter H e (cur + 7)]
    by_cases hh : cur ∈ H
    · simp [hh]
    · simp [hh]
  · rw [if_neg h, if_neg h]
    rfl
termination_by (e + 1 - cur).toNat
decreasing_by omega

/-- The skipped-date loop is the candidate loop filtered to holidays. -/
theorem skippedDatesFrom_eq_filter (H : List ℤ) (e cur : ℤ) :
    skippedDatesFrom H e cur
      = (candidatesFrom e cur).filter (fun d => decide (d ∈ H)) := by
  rw [skippedDatesFrom, candidatesFrom]
  by_cases h : cur ≤ e
  · rw [if_pos h, if_pos h, skippedDatesFrom_eq_filter H e (cur + 7)]
    by_cases hh : cur ∈ H
    · simp [hh]
    · simp [hh]
  · rw [if_neg h, if_neg h]
    rfl
termination_by (e + 1 - cur).toNat
decreasing_by omega

/-- Shifting the weekly index by one step of 7 days. -/
theorem map_range_shift (c : ℤ) (n : ℕ) :
    List.map (fun k : ℕ => (c + 7) + 7 * (k : ℤ)) (List.range n)
      = List.map (fun k : ℕ => c + 7 * (k : ℤ)) (List.map Nat.succ (List.range n)) := by
  rw [List.map_map]
  refine List.map_congr_left ?_
  intro k _
  simp only [Function.comp]
  push_cast
  ring

/-- Closed form of the candidate loop. -/
theorem candidatesFrom_eq (e cur : ℤ) :
    candidatesFrom e cur
      = if cur ≤ e
        then (List.range ((e - cur).toNat / 7 + 1)).map (fun k : ℕ => cur + 7 * (k : ℤ))
        else [] := by
  rw [candidatesFrom]
  by_cases h : cur ≤ e
  · rw [if_pos h, if_pos h, candidatesFrom_eq e (cur + 7)]
    by_cases h7 : cur + 7 ≤ e
    · rw [if_pos h7]
      have hn : (e - cur).toNat / 7 + 1 = ((e - (cur + 7)).toNat / 7 + 1) + 1 := by
        omega
      rw [hn, map_range_shift cur ((e - (cur + 7)).toNat / 7 + 1)]
      conv_rhs => rw [List.range_succ_eq_map]
      rw [List.map_cons]
      congr 1
      norm_num
    · rw [if_neg h7]
      have hn : (e - cur).toNat / 7 + 1 = 1 := by omega
      rw [hn, show List.range 1 = [0] from rfl, List.map_cons, List.map_nil]
      norm_num
  · rw [if_neg h, if_neg h]
termination_by (e + 1 - cur).toNat
decreasing_by omega

/-- Every candidate date lies in `[cur, e]`. -/
theorem mem_candidatesFrom {e cur d : ℤ} (h : d ∈ candidatesFrom e cur) :
    cur ≤ d ∧ d ≤ e := by
  rw [candidatesFrom] at h
  by_cases hc : cur ≤ e
  · rw [if_pos hc] at h
    rcases List.mem_cons.mp h with rfl | h'
    · exact ⟨le_refl d, hc⟩
    · have := mem_candidatesFrom h'
      omega
  · rw [if_neg hc] at h
    exact absurd h (List.not_mem_nil d)
termination_by (e + 1 - cur).toNat
decreasing_by omega

/-- Membership in the year iteration of the holiday calculator. -/
theorem mem_yearsRange {a b y : ℤ} : y ∈ yearsRange a b ↔ a ≤ y ∧ y ≤ b := by
  simp only [yearsRange, List.mem_map, List.mem_range]
  constructor
  · rintro ⟨i, hi, rfl⟩
    omega
  · rintro ⟨h1, h2⟩
    exact ⟨(y - a).toNat, by omega, by omega⟩

/-- Membership in the computed holiday range. -/
theorem mem_get_holidays_in_range {cal : ℤ → List ℤ} {yearOf : ℤ → ℤ}
    {s e d : ℤ} :
    d ∈ get_holidays_in_range cal yearOf (some s) (some e)
      ↔ ∃ y, y ∈ yearsRange (yearOf s) (yearOf e) ∧ d ∈ cal y ∧ s ≤ d ∧ d ≤ e := by
  unfold get_holidays_in_range
  rw [(List.perm_insertionSort _ _).mem_iff]
  simp only [List.mem_flatMap, List.mem_filter, Bool.and_eq_true, decide_eq_true_eq]

/-- C7: for start ≤ end and any holiday calendar whose per-year lists are
coherent with a monotone year function, the enumerated course occurrences
are exactly the weekly candidates `start + 7k ≤ end` that are not public
holidays; the occurrences are disjoint from the holidays in range; and
the skipped dates are exactly the weekly candidates that are holidays. -/
theorem course_dates_spec :
    ∀ (cal : ℤ → List ℤ) (yearOf : ℤ → ℤ),
      (∀ a b, a ≤ b → yearOf a ≤ yearOf b) →
      (∀ y d, d ∈ cal y → yearOf d = y) →
      ∀ (s e w : ℤ), s ≤ e →
        get_course_dates cal yearOf s e w
            = (weeklyCandidates s e).filter (fun d => !(is_holiday cal yearOf d))
        ∧ (∀ d ∈ get_course_dates cal yearOf s e w,
            d ∉ get_holidays_in_range cal yearOf (some s) (some e))
        ∧ get_skipped_dates_due_to_holidays cal yearOf s e w
            = (weeklyCandidates s e).filter (fun d => is_holiday cal yearOf d) := by
  intro cal yearOf hmono hcal s e w hse
  have hweekly : weeklyCandidates s e = candidatesFrom e s := by
    rw [candidatesFrom_eq, weeklyCandidates]
  have hkey : ∀ d, s ≤ d → d ≤ e →
      (d ∈ get_holidays_in_range cal yearOf (some s) (some e) ↔ d ∈ cal (yearOf d)) := by
    intro d h1 h2
    rw [mem_get_holidays_in_range]
    constructor
    · rintro ⟨y, _, hdy, _, _⟩
      rwa [hcal y d hdy]
    · intro hd
      exact ⟨yearOf d, mem_yearsRange.mpr ⟨hmono s d h1, hmono d e h2⟩, hd, h1, h2⟩
  refine ⟨?_, ?_, ?_⟩
  · unfold get_course_dates
    rw [courseDatesFrom_eq_filter, hweekly]
    refine List.filter_congr ?_
    intro d hd
    obtain ⟨h1, h2⟩ := mem_candidatesFrom hd
    unfold is_holiday
    rw [decide_not]
    exact congrArg (! ·) (decide_eq_decide.mpr (hkey d h1 h2))
  · intro d hd
    unfold get_course_dates at hd
    rw [courseDatesFrom_eq_filter] at hd
    have hp := List.of_mem_filter hd
    simp only [decide_eq_true_eq] at hp
    exact hp
  · unfold get_skipped_dates_due_to_holidays
    rw [skippedDatesFrom_eq_filter, hweekly]
    refine List.filter_congr ?_
    intro d hd
    obtain ⟨h1, h2⟩ := mem_candidatesFrom hd
    unfold is_holiday
    exact decide_eq_decide.mpr (hkey d h1 h2)

/-- A one-holiday calendar: day 7 is a holiday of year 0. -/
def calOneHoliday : ℤ → List ℤ := fun y => if y = 0 then [7] else []

/-- A degenerate year function mapping every day to year 0. -/
def yearZero : ℤ → ℤ := fun _ => 0

/-- Witness for C7 at the concrete calendar: a weekly course from day 0 to
day 14 is held on days 0 and 14 and skipped on the holiday, day 7. -/
theorem course_dates_spec_witness :
    get_course_dates calOneHoliday yearZero 0 14 0
      = (weeklyCandidates 0 14).filter (fun d => !(is_holiday calOneHoliday yearZero d))
    ∧ get_course_dates calOneHoliday yearZero 0 14 0 = [0, 14]
    ∧ get_skipped_dates_due_to_holidays calOneHoliday yearZero 0 14 0 = [7] := by
  have hmono : ∀ a b : ℤ, a ≤ b → yearZero a ≤ yearZero b := fun _ _ _ => le_refl 0
  have hcal : ∀ y d : ℤ, d ∈ calOneHoliday y → yearZero d = y := by
    intro y d hd
    unfold calOneHoliday at hd
    by_cases hy : y = 0
    · rw [hy]; rfl
    · rw [if_neg hy] at hd
      exact absurd hd (List.not_mem_nil d)
  have h := course_dates_spec calOneHoliday yearZero hmono hcal 0 14 0 (by norm_num)
  have hH : get_holidays_in_range calOneHoliday yearZero (some 0) (some 14) = [7] := by
    unfold get_holidays_in_range yearsRange calOneHoliday yearZero
    decide
  refine ⟨h.1, ?_, ?_⟩
  · unfold get_course_dates
    rw [hH]
    simp [courseDatesFrom]
  · unfold get_skipped_dates_due_to_holidays
    rw [hH]
    simp [skippedDatesFrom]
